import Mathlib

/-!
Verification of the gbemu Game Boy emulator core (TypeScript) against its
natural-language specification.

The development shallowly embeds the emulator's components as pure Lean
functions over explicit state records:

* machine integers are `Nat` with explicit masking (`% 256`, `% 65536`);
  the JavaScript bitmasks `& 0xFF` / `& 0xFFFF` on non-negative values are
  exactly these mods, and `x & ~(1 << b)` followed by a `& 0xFF` store is
  `Nat.land x (Nat.xor 0xFF (1 <<< b))`;
* the byte arrays (`Uint8Array`) backing VRAM/WRAM/OAM/HRAM/the I/O file are
  total functions `Nat → Nat` updated pointwise (every in-range access in the
  source stays inside the array, and theorems that need byte-sized contents
  carry that hypothesis explicitly);
* JavaScript exceptions (`throw new Error(msg)`) become an explicit
  `thrown msg` outcome;
* two pieces of the current bus are referenced by the rest of the code but
  their bodies are not part of the sources (`Timer.handleRegisterWrite`, the
  DMA transfer triggered by a write to 0xFF46); those two definitions are
  modelled from the specification and are marked as such in their doc
  comments.  Everything else is translated from the sources.
-/

namespace GBEmu

/-- Pointwise update of a byte store (models `arr[i] = v` on a `Uint8Array`). -/
def upd (s : Nat → Nat) (i v : Nat) : Nat → Nat :=
  fun j => if j = i then v else s j

/-- `to8Bit` from `src/utils/bits.ts`: `value & 0xFF` (on non-negative values). -/
def to8Bit (value : Nat) : Nat := value % 256

/-- `to16Bit` from `src/utils/bits.ts`: `value & 0xFFFF` (on non-negative values). -/
def to16Bit (value : Nat) : Nat := value % 65536

/-- `getBit` from `src/utils/bits.ts`: `(value >> bit) & 1`. -/
def getBit (value bit : Nat) : Nat := Nat.land (value >>> bit) 1

/-- `sp - 1` in 16-bit arithmetic, as the source's `to16Bit(sp - 1)`:
JavaScript computes `-1 & 0xFFFF = 0xFFFF` when `sp = 0` and `(sp - 1) &
0xFFFF` otherwise (this split form equals `(sp + 0xFFFF) % 0x10000`). -/
def dec16 (sp : Nat) : Nat := if sp = 0 then 0xFFFF else (sp - 1) % 65536

/-- Internal timer counters (`Timer` in `src/core/timer/Timer.ts`). -/
structure Timer where
  divCounter : Nat
  timaCounter : Nat
  deriving Repr, DecidableEq

/-- `MBC1` from `src/core/memory/mbcs/MBC1.ts`.  `rom` is the immutable
cartridge image, `romBankCount = rom.length / 0x4000`. -/
structure MBC1 where
  rom : Nat → Nat
  ram : Nat → Nat
  ramEnabled : Bool
  romBankLow : Nat
  ramBankOrRomBankHigh : Nat
  bankingMode : Nat
  romBankCount : Nat
  ramBankCount : Nat

/-- `MBC1.readROMBank0`. -/
def MBC1.readROMBank0 (c : MBC1) (address : Nat) : Nat :=
  if c.bankingMode = 1 then
    let bank := Nat.land (c.ramBankOrRomBankHigh <<< 5) (c.romBankCount - 1)
    c.rom (bank * 0x4000 + address)
  else
    c.rom address

/-- `MBC1.readROMBank1`. -/
def MBC1.readROMBank1 (c : MBC1) (address : Nat) : Nat :=
  let bank := Nat.lor (c.ramBankOrRomBankHigh <<< 5) c.romBankLow
  let bank := Nat.land bank (c.romBankCount - 1)
  let romAddress := bank * 0x4000 + address
  c.rom romAddress

/-- `MBC1.readRAM`. -/
def MBC1.readRAM (c : MBC1) (address : Nat) : Nat :=
  if !c.ramEnabled ∨ c.ramBankCount = 0 then 0xFF
  else
    let bank := if c.bankingMode = 1 ∧ 1 < c.ramBankCount then
        Nat.land c.ramBankOrRomBankHigh (c.ramBankCount - 1)
      else 0
    c.ram (bank * 0x2000 + address)

/-- `MBC1.writeRAM`. -/
def MBC1.writeRAM (c : MBC1) (address value : Nat) : MBC1 :=
  if !c.ramEnabled ∨ c.ramBankCount = 0 then c
  else
    let bank := if c.bankingMode = 1 ∧ 1 < c.ramBankCount then
        Nat.land c.ramBankOrRomBankHigh (c.ramBankCount - 1)
      else 0
    { c with ram := upd c.ram (bank * 0x2000 + address) value }

/-- `MBC1.writeControl`. -/
def MBC1.writeControl (c : MBC1) (address value : Nat) : MBC1 :=
  if address ≤ 0x1FFF then
    { c with ramEnabled := Nat.land value 0x0F = 0x0A }
  else if 0x2000 ≤ address ∧ address ≤ 0x3FFF then
    let low := Nat.land value 0x1F
    { c with romBankLow := if low = 0 then 0x01 else low }
  else if 0x4000 ≤ address ∧ address ≤ 0x5FFF then
    { c with ramBankOrRomBankHigh := Nat.land value 0x03 }
  else if 0x6000 ≤ address ∧ address ≤ 0x7FFF then
    { c with bankingMode := Nat.land value 0x01 }
  else c

/-- The bus (`MMU` in `src/core/memory/MMU.ts`).  The cartridge slot holds an
MBC1 (the `Cartridge` class delegates every call to its memory-bank
controller; the claims exercise the MBC1 variant).  `timer` mirrors the
`timer` reference installed by `MMU.setTimer`. -/
structure MMU where
  vram : Nat → Nat
  wram : Nat → Nat
  oam : Nat → Nat
  hram : Nat → Nat
  ioRegs : Nat → Nat
  interruptEnable : Nat
  cartridge : Option MBC1
  timer : Option Timer

/-- `MMU.getIO`: `io[offset & 0x7F]`. -/
def MMU.getIoReg (m : MMU) (offset : Nat) : Nat :=
  m.ioRegs (Nat.land offset 0x7F)

/-- `MMU.setIO`: `io[offset & 0x7F] = value & 0xFF`. -/
def MMU.setIoReg (m : MMU) (offset value : Nat) : MMU :=
  { m with ioRegs := upd m.ioRegs (Nat.land offset 0x7F) (to8Bit value) }

/-- `MMU.getInterruptFlag`: `io[0x0F]`. -/
def MMU.getInterruptFlag (m : MMU) : Nat := m.ioRegs 0x0F

/-- `MMU.setInterruptFlag`: `io[0x0F] = value & 0xFF`. -/
def MMU.setInterruptFlag (m : MMU) (value : Nat) : MMU :=
  { m with ioRegs := upd m.ioRegs 0x0F (to8Bit value) }

/-- `MMU.readIO`: both switch cases return `io[address - 0xFF00]`. -/
def MMU.readIoReg (m : MMU) (address : Nat) : Nat :=
  m.ioRegs (address - 0xFF00)

/-- `MMU.read`: the region decode of the bus. -/
def MMU.read (m : MMU) (address : Nat) : Nat :=
  let addr := to16Bit address
  if addr < 0x4000 then
    match m.cartridge with
    | none => 0xFF
    | some c => c.readROMBank0 addr
  else if addr < 0x8000 then
    match m.cartridge with
    | none => 0xFF
    | some c => c.readROMBank1 (addr - 0x4000)
  else if addr < 0xA000 then m.vram (addr - 0x8000)
  else if addr < 0xC000 then
    match m.cartridge with
    | none => 0xFF
    | some c => c.readRAM (addr - 0xA000)
  else if addr < 0xE000 then m.wram (addr - 0xC000)
  else if addr < 0xFE00 then m.wram (addr - 0xE000)
  else if addr < 0xFEA0 then m.oam (addr - 0xFE00)
  else if addr < 0xFF00 then 0xFF
  else if addr < 0xFF80 then m.readIoReg addr
  else if addr < 0xFFFF then m.hram (addr - 0xFF80)
  else m.interruptEnable

/-- Modelled from the spec: `Timer.handleRegisterWrite`, invoked by
`MMU.writeIO` for writes to 0xFF04/0xFF05/0xFF07, has no definition in the
sources (the `Timer` given there predates the notification hook).  Per the
spec, a write to `0xFF04` (DIV), regardless of value, resets DIV and the
timer's internal DIV accumulator to 0; for TIMA and TAC the spec only says
the timer updates internal state, so the register value is stored. -/
def Timer.handleRegisterWrite (m : MMU) (t : Timer) (address value : Nat) : MMU :=
  if address = 0xFF04 then
    { m with ioRegs := upd m.ioRegs 0x04 0, timer := some { t with divCounter := 0 } }
  else if address = 0xFF05 then
    { m with ioRegs := upd m.ioRegs 0x05 (to8Bit value) }
  else if address = 0xFF07 then
    { m with ioRegs := upd m.ioRegs 0x07 (to8Bit value) }
  else m

/-- Modelled from the spec: the OAM DMA transfer triggered by a write of `v`
to `0xFF46` is a TODO in the `MMU.writeIO` of the sources; the spec states
that the write copies the 160 bytes at `[v<<8, v<<8 + 0xA0)` into OAM
atomically, each byte captured through the bus at DMA time. -/
def MMU.dmaTransfer (m : MMU) (value : Nat) : MMU :=
  { m with oam := fun i => if i < 160 then m.read ((value <<< 8) + i) else m.oam i }

/-- `MMU.writeIO` (with the spec-modelled DMA transfer on the 0xFF46 case,
whose register store comes first as in the source). -/
def MMU.writeIoReg (m : MMU) (address value : Nat) : MMU :=
  let offset := address - 0xFF00
  if address = 0xFF04 ∨ address = 0xFF05 ∨ address = 0xFF07 then
    match m.timer with
    | some t => Timer.handleRegisterWrite m t address value
    | none => m
  else if address = 0xFF44 then m
  else if address = 0xFF46 then
    MMU.dmaTransfer { m with ioRegs := upd m.ioRegs offset value } value
  else
    { m with ioRegs := upd m.ioRegs offset value }

/-- `MMU.write`: the region decode of bus writes. -/
def MMU.write (m : MMU) (address value : Nat) : MMU :=
  let addr := to16Bit address
  let val := to8Bit value
  if addr < 0x8000 then
    match m.cartridge with
    | some c => { m with cartridge := some (c.writeControl addr val) }
    | none => m
  else if addr < 0xA000 then { m with vram := upd m.vram (addr - 0x8000) val }
  else if addr < 0xC000 then
    match m.cartridge with
    | some c => { m with cartridge := some (c.writeRAM (addr - 0xA000) val) }
    | none => m
  else if addr < 0xE000 then { m with wram := upd m.wram (addr - 0xC000) val }
  else if addr < 0xFE00 then { m with wram := upd m.wram (addr - 0xE000) val }
  else if addr < 0xFEA0 then { m with oam := upd m.oam (addr - 0xFE00) val }
  else if addr < 0xFF00 then m
  else if addr < 0xFF80 then m.writeIoReg addr val
  else if addr < 0xFFFF then { m with hram := upd m.hram (addr - 0xFF80) val }
  else { m with interruptEnable := val }

/-! ### CPU (`src/core/cpu/CPU.ts`, registers from `src/core/cpu/registers.ts`) -/

/-- The register file (`Registers`). -/
structure Registers where
  a : Nat
  b : Nat
  c : Nat
  d : Nat
  e : Nat
  f : Nat
  h : Nat
  l : Nat
  sp : Nat
  pc : Nat

/-- CPU state (`CPU`): registers, the bus, and the four boolean flags. -/
structure CPU where
  registers : Registers
  mmu : MMU
  halted : Bool
  stopped : Bool
  ime : Bool
  imeScheduled : Bool

/-- The result of one `CPU.step`: either a cycle count with the next machine
state, a JavaScript exception carrying its message, or an opcode outside the
embedded fragment of the dispatch tables (never produced on the inputs any
theorem below evaluates). -/
inductive StepResult where
  | ok (cycles : Nat) (cpu : CPU)
  | thrown (msg : String)
  | unmodelled (opcode : Nat)

/-- `CPU.readPC`: fetch the byte at PC and post-increment PC (16-bit). -/
def CPU.readPC (c : CPU) : Nat × CPU :=
  let value := c.mmu.read c.registers.pc
  (value, { c with registers := { c.registers with pc := to16Bit (c.registers.pc + 1) } })

/-- `CPU.pushStack`: decrement SP, store the high byte, decrement SP, store
the low byte. -/
def CPU.pushStack (c : CPU) (value : Nat) : CPU :=
  let sp1 := dec16 c.registers.sp
  let m1 := c.mmu.write sp1 (Nat.land (value >>> 8) 0xFF)
  let sp2 := dec16 sp1
  let m2 := m1.write sp2 (Nat.land value 0xFF)
  { c with mmu := m2, registers := { c.registers with sp := sp2 } }

/-- The priority-ordered interrupt table of `CPU.handleInterrupts`:
`{bit, address}` pairs for VBlank, LCD STAT, Timer, Serial, Joypad. -/
def interruptTable : List (Nat × Nat) :=
  [(0, 0x40), (1, 0x48), (2, 0x50), (3, 0x58), (4, 0x60)]

/-- The `for` loop body of `CPU.handleInterrupts`: dispatch the first table
entry whose bit is set in `triggered` (disable IME, clear the IF bit, push
PC, jump to the vector, 20 cycles). -/
def CPU.serviceLoop (c : CPU) (interruptFlag triggered : Nat) :
    List (Nat × Nat) → Nat × CPU
  | [] => (0, c)
  | (bit, address) :: rest =>
    if Nat.land triggered (1 <<< bit) ≠ 0 then
      let c1 : CPU := { c with ime := false }
      let clearedFlag := Nat.land interruptFlag (Nat.xor 0xFF (1 <<< bit))
      let c2 : CPU := { c1 with mmu := c1.mmu.setInterruptFlag clearedFlag }
      let c3 := c2.pushStack c2.registers.pc
      (20, { c3 with registers := { c3.registers with pc := address } })
    else
      CPU.serviceLoop c interruptFlag triggered rest

/-- `CPU.handleInterrupts`: no dispatch when IME is clear or nothing is
triggered; otherwise run the priority loop. -/
def CPU.handleInterrupts (c : CPU) : Nat × CPU :=
  if !c.ime then (0, c)
  else
    let interruptEnable := c.mmu.interruptEnable
    let interruptFlag := c.mmu.getInterruptFlag
    let triggered := Nat.land interruptEnable interruptFlag
    if triggered = 0 then (0, c)
    else CPU.serviceLoop c interruptFlag triggered interruptTable

/-- The message of the `Error` thrown by the handler of an undefined primary
opcode in the full instruction table (e.g. `Illegal opcode 0xD3 executed`);
the messages mention the opcode and nothing else. -/
def illegalOpcodeMessage (opcode : Nat) : String :=
  if opcode = 0xD3 then "Illegal opcode 0xD3 executed"
  else if opcode = 0xDB then "Illegal opcode 0xDB executed"
  else if opcode = 0xDD then "Illegal opcode 0xDD executed"
  else if opcode = 0xE3 then "Illegal opcode 0xE3 executed"
  else if opcode = 0xE4 then "Illegal opcode 0xE4 executed"
  else if opcode = 0xEB then "Illegal opcode 0xEB executed"
  else if opcode = 0xEC then "Illegal opcode 0xEC executed"
  else if opcode = 0xED then "Illegal opcode 0xED executed"
  else if opcode = 0xF4 then "Illegal opcode 0xF4 executed"
  else if opcode = 0xFC then "Illegal opcode 0xFC executed"
  else if opcode = 0xFD then "Illegal opcode 0xFD executed"
  else ""

/-- The eleven undefined primary opcodes. -/
def illegalOpcodes : List Nat :=
  [0xD3, 0xDB, 0xDD, 0xE3, 0xE4, 0xEB, 0xEC, 0xED, 0xF4, 0xFC, 0xFD]

/-- The rows of the full 256-entry primary instruction table that the claims
exercise: `NOP` (0x00) and the eleven `ILLEGAL_xx` handlers, which `throw
new Error('Illegal opcode 0x.. executed')`.  All 256 opcodes have entries in
the table, so the `if (!instruction)` fallback of `CPU.step` is dead for
them; rows not needed by any theorem are left `unmodelled`. -/
def execInstruction (opcode : Nat) (c : CPU) : StepResult :=
  if opcode = 0x00 then .ok 4 c
  else if opcode ∈ illegalOpcodes then .thrown (illegalOpcodeMessage opcode)
  else .unmodelled opcode

/-- `CPU.step`: apply a scheduled IME, try interrupt dispatch (clearing HALT
when it fires), stall for 4 cycles while halted, otherwise fetch and
execute. -/
def CPU.step (c : CPU) : StepResult :=
  let c := if c.imeScheduled then { c with ime := true, imeScheduled := false } else c
  let r := c.handleInterrupts
  let interruptCycles := r.1
  let c1 := r.2
  if interruptCycles > 0 then .ok interruptCycles { c1 with halted := false }
  else if c1.halted then .ok 4 c1
  else
    let f := c1.readPC
    let opcode := f.1
    let c2 := f.2
    if opcode = 0xCB then .unmodelled 0xCB
    else execInstruction opcode c2

/-! ### Joypad (`src/core/input/Joypad.ts`)

Button indices follow the `Button` enum: RIGHT=0, LEFT=1, UP=2, DOWN=3,
A=4, B=5, SELECT=6, START=7. -/

/-- Joypad state: pressed flags per button index, and the previous snapshot
used for edge-triggered interrupts. -/
structure Joypad where
  buttonStates : Nat → Bool
  previousStates : Nat → Bool

/-- `Joypad.updateJoypadRegister`: rebuild bits 0–3 of P1 (0xFF00) from the
selection bits 5/4 and the pressed-button flags, then write the result back
through the bus.  Each `result &= ~mask` is `Nat.land result m'` with `m'`
the 8-bit complement (the intermediate `result` is always below 256). -/
def Joypad.updateJoypadRegister (j : Joypad) (m : MMU) : MMU :=
  let p1 := m.read 0xFF00
  let selectButtons := Nat.land p1 0x20 = 0
  let selectDirections := Nat.land p1 0x10 = 0
  let result := Nat.land p1 0xF0
  let result :=
    if selectButtons then
      let r := Nat.lor result 0x0F
      let r := if j.buttonStates 7 then Nat.land r 0xF7 else r
      let r := if j.buttonStates 6 then Nat.land r 0xFB else r
      let r := if j.buttonStates 5 then Nat.land r 0xFD else r
      let r := if j.buttonStates 4 then Nat.land r 0xFE else r
      r
    else if selectDirections then
      let r := Nat.lor result 0x0F
      let r := if j.buttonStates 3 then Nat.land r 0xF7 else r
      let r := if j.buttonStates 2 then Nat.land r 0xFB else r
      let r := if j.buttonStates 1 then Nat.land r 0xFD else r
      let r := if j.buttonStates 0 then Nat.land r 0xFE else r
      r
    else Nat.lor result 0x0F
  m.write 0xFF00 result

/-! ### PPU (`src/core/ppu/PPU.ts`, constants from `src/core/ppu/constants.ts`) -/

/-- `LCDMode`. -/
inductive LCDMode where
  | hblank
  | vblank
  | oamScan
  | drawing
  deriving DecidableEq

/-- The numeric value of each mode (`HBLANK = 0, VBLANK = 1, OAM_SCAN = 2,
DRAWING = 3`). -/
def LCDMode.toNat : LCDMode → Nat
  | .hblank => 0
  | .vblank => 1
  | .oamScan => 2
  | .drawing => 3

/-- PPU state. -/
structure PPU where
  framebuffer : Nat → Nat
  bgColorIndices : Nat → Nat
  mode : LCDMode
  cycles : Nat
  line : Nat
  windowLineCounter : Nat
  lycTriggered : Bool
  frameReady : Bool

/-- `DMG_COLORS`: the four (R, G, B) shades. -/
def dmgColors : Nat → Nat × Nat × Nat
  | 0 => (0x9B, 0xBC, 0x0F)
  | 1 => (0x8B, 0xAC, 0x0F)
  | 2 => (0x30, 0x62, 0x30)
  | _ => (0x0F, 0x38, 0x0F)

/-- Store one RGBA pixel (`framebuffer[i..i+3] = r, g, b, 255`). -/
def writePixel (fb : Nat → Nat) (fbIndex : Nat) (c : Nat × Nat × Nat) : Nat → Nat :=
  upd (upd (upd (upd fb fbIndex c.1) (fbIndex + 1) c.2.1) (fbIndex + 2) c.2.2) (fbIndex + 3) 255

/-- `PPU.requestInterrupt`. -/
def ppuRequestInterrupt (m : MMU) (interrupt : Nat) : MMU :=
  m.setInterruptFlag (Nat.lor m.getInterruptFlag (1 <<< interrupt))

/-- One gathered OAM entry of `PPU.renderSprites` (`x` and `y` carry the
already-applied −8/−16 offsets and may be negative). -/
structure Sprite where
  x : Int
  y : Int
  tile : Nat
  flags : Nat
  oamIndex : Nat
  deriving DecidableEq

/-- Read OAM entry `i` through the bus, as the gather loop of
`PPU.renderSprites` does. -/
def readSprite (m : MMU) (i : Nat) : Sprite :=
  let oamAddr := 0xFE00 + i * 4
  { y := (m.read oamAddr : Int) - 16
    x := (m.read (oamAddr + 1) : Int) - 8
    tile := m.read (oamAddr + 2)
    flags := m.read (oamAddr + 3)
    oamIndex := i }

/-- The on-line test of the gather loop:
`this.line >= y && this.line < y + spriteHeight`. -/
def spriteOnLine (line spriteHeight : Nat) (s : Sprite) : Bool :=
  decide (s.y ≤ (line : Int)) && decide ((line : Int) < s.y + spriteHeight)

/-- The gather loop of `PPU.renderSprites`: push each on-line entry and stop
once 10 are collected (`MAX_SPRITES_PER_LINE`). -/
def gatherAux (m : MMU) (line spriteHeight : Nat) :
    List Nat → List Sprite → List Sprite
  | [], acc => acc.reverse
  | i :: rest, acc =>
    let s := readSprite m i
    if spriteOnLine line spriteHeight s then
      let acc' := s :: acc
      if 10 ≤ acc'.length then acc'.reverse
      else gatherAux m line spriteHeight rest acc'
    else gatherAux m line spriteHeight rest acc

/-- `spritesOnLine` after the OAM scan of `PPU.renderSprites`. -/
def gatherSprites (m : MMU) (line spriteHeight : Nat) : List Sprite :=
  gatherAux m line spriteHeight (List.range 40) []

/-- The sort comparator of `PPU.renderSprites` as a total `Bool` order:
`a` is placed no later than `b` iff `b.x - a.x` then `b.oamIndex - a.oamIndex`
is non-positive, i.e. descending X (lowest X drawn last, on top), ties by
descending OAM index. -/
def spriteLE (a b : Sprite) : Bool :=
  decide (b.x < a.x) || (decide (a.x = b.x) && decide (b.oamIndex ≤ a.oamIndex))

/-- `spritesOnLine.sort(...)`. -/
def sortSprites (l : List Sprite) : List Sprite :=
  l.mergeSort spriteLE

/-- The tile-number and tile-row selection of the sprite render loop: apply
the Y-flip to `line - y`, and in 8×16 mode clear the tile's low bit, moving
to the odd tile for rows 8–15.  Row arithmetic is over `Int` exactly as the
source's untyped numbers; the row is non-negative for every on-line
sprite. -/
def spriteTileRow (line spriteHeight : Nat) (s : Sprite) : Nat × Int :=
  let flipY := getBit s.flags 6
  let spriteRow : Int := (line : Int) - s.y
  let spriteRow := if flipY = 1 then ((spriteHeight : Int) - 1) - spriteRow else spriteRow
  if spriteHeight = 16 then
    let t := Nat.land s.tile 0xFE
    if 8 ≤ spriteRow then (Nat.lor t 0x01, spriteRow - 8) else (t, spriteRow)
  else (s.tile, spriteRow)

/-- The per-sprite body of the render loop of `PPU.renderSprites`: fetch the
tile row (Y-flip, 8×16 tile pairing), then draw the 8 pixels (X-flip,
transparency for color 0, BG priority via the color-index buffer, OBP
palette). -/
def drawSprite (m : MMU) (line spriteHeight obp0 obp1 : Nat)
    (bgColorIndices : Nat → Nat) (fb : Nat → Nat) (s : Sprite) : Nat → Nat :=
  let priority := getBit s.flags 7
  let flipX := getBit s.flags 5
  let palette := if getBit s.flags 4 = 1 then obp1 else obp0
  let tn := spriteTileRow line spriteHeight s
  let tileDataAddress := 0x8000 + tn.1 * 16 + tn.2.toNat * 2
  let byte1 := m.read tileDataAddress
  let byte2 := m.read (tileDataAddress + 1)
  (List.range 8).foldl (fun fbAcc (px : Nat) =>
    let screenX : Int := s.x + (px : Int)
    if screenX < 0 ∨ 160 ≤ screenX then fbAcc
    else
      let bitPosition := if flipX = 1 then px else 7 - px
      let colorBit0 := Nat.land (byte1 >>> bitPosition) 1
      let colorBit1 := Nat.land (byte2 >>> bitPosition) 1
      let colorIndex := Nat.lor (colorBit1 <<< 1) colorBit0
      if colorIndex = 0 then fbAcc
      else if priority = 1 ∧ bgColorIndices (line * 160 + screenX.toNat) ≠ 0 then fbAcc
      else
        let paletteColor := Nat.land (palette >>> (colorIndex * 2)) 0x03
        let fbIndex := (line * 160 + screenX.toNat) * 4
        writePixel fbAcc fbIndex (dmgColors paletteColor)) fb

/-- `PPU.renderSprites`: gather, sort, and draw, producing the new
framebuffer. -/
def renderSprites (m : MMU) (line : Nat) (bgColorIndices fb : Nat → Nat) : Nat → Nat :=
  let lcdc := m.getIoReg 0x40
  let spriteHeight := if getBit lcdc 2 = 1 then 16 else 8
  let spritesOnLine := sortSprites (gatherSprites m line spriteHeight)
  let obp0 := m.getIoReg 0x48
  let obp1 := m.getIoReg 0x49
  spritesOnLine.foldl
    (fun fbAcc s => drawSprite m line spriteHeight obp0 obp1 bgColorIndices fbAcc s) fb

/-- `PPU.renderBackground`: one scanline of background pixels, returning the
new framebuffer and BG-color-index buffer. -/
def renderBackground (m : MMU) (line : Nat) (fb bg : Nat → Nat) :
    (Nat → Nat) × (Nat → Nat) :=
  let lcdc := m.getIoReg 0x40
  let scx := m.getIoReg 0x43
  let scy := m.getIoReg 0x42
  let bgp := m.getIoReg 0x47
  let tileMapBase := if getBit lcdc 3 = 1 then 0x9C00 else 0x9800
  let tileDataBase := if getBit lcdc 4 = 1 then 0x8000 else 0x8800
  let useSigned := getBit lcdc 4 = 0
  let y := Nat.land (line + scy) 0xFF
  let tileY := Nat.land (y >>> 3) 31
  let tilePixelY := Nat.land y 7
  (List.range 160).foldl (fun acc (x : Nat) =>
    let bgX := Nat.land (x + scx) 0xFF
    let tileX := Nat.land (bgX >>> 3) 31
    let tilePixelX := Nat.land bgX 7
    let tileMapAddress := tileMapBase + tileY * 32 + tileX
    let tileNum := m.read tileMapAddress
    let tileDataAddress : Int :=
      if useSigned then
        let signedTileNum : Int := if 127 < tileNum then (tileNum : Int) - 256 else tileNum
        0x9000 + signedTileNum * 16
      else (tileDataBase : Int) + (tileNum : Int) * 16
    let rowDataAddress := (tileDataAddress + (tilePixelY : Int) * 2).toNat
    let byte1 := m.read rowDataAddress
    let byte2 := m.read (rowDataAddress + 1)
    let bitPosition := 7 - tilePixelX
    let colorBit0 := Nat.land (byte1 >>> bitPosition) 1
    let colorBit1 := Nat.land (byte2 >>> bitPosition) 1
    let colorIndex := Nat.lor (colorBit1 <<< 1) colorBit0
    let paletteColor := Nat.land (bgp >>> (colorIndex * 2)) 0x03
    let fbIndex := (line * 160 + x) * 4
    (writePixel acc.1 fbIndex (dmgColors paletteColor),
     upd acc.2 (line * 160 + x) colorIndex)) (fb, bg)

/-- `PPU.renderWindow`: window pixels over the background for one scanline;
returns the new framebuffer, BG-color-index buffer, and whether any window
pixel was emitted (which advances the internal window line counter). -/
def renderWindow (m : MMU) (line windowLineCounter : Nat) (fb bg : Nat → Nat) :
    (Nat → Nat) × (Nat → Nat) × Bool :=
  let lcdc := m.getIoReg 0x40
  let wy := m.getIoReg 0x4A
  let wx := m.getIoReg 0x4B
  let bgp := m.getIoReg 0x47
  if getBit lcdc 5 ≠ 1 then (fb, bg, false)
  else if line < wy then (fb, bg, false)
  else
    let tileMapBase := if getBit lcdc 6 = 1 then 0x9C00 else 0x9800
    let tileDataBase := if getBit lcdc 4 = 1 then 0x8000 else 0x8800
    let useSigned := getBit lcdc 4 = 0
    let tileY := Nat.land (windowLineCounter >>> 3) 31
    let tilePixelY := Nat.land windowLineCounter 7
    let windowX : Int := (wx : Int) - 7
    (List.range 160).foldl (fun acc (x : Nat) =>
      if (x : Int) < windowX then acc
      else
        let winX := ((x : Int) - windowX).toNat
        let tileX := Nat.land (winX >>> 3) 31
        let tilePixelX := Nat.land winX 7
        let tileMapAddress := tileMapBase + tileY * 32 + tileX
        let tileNum := m.read tileMapAddress
        let tileDataAddress : Int :=
          if useSigned then
            let signedTileNum : Int := if 127 < tileNum then (tileNum : Int) - 256 else tileNum
            0x9000 + signedTileNum * 16
          else (tileDataBase : Int) + (tileNum : Int) * 16
        let rowDataAddress := (tileDataAddress + (tilePixelY : Int) * 2).toNat
        let byte1 := m.read rowDataAddress
        let byte2 := m.read (rowDataAddress + 1)
        let bitPosition := 7 - tilePixelX
        let colorBit0 := Nat.land (byte1 >>> bitPosition) 1
        let colorBit1 := Nat.land (byte2 >>> bitPosition) 1
        let colorIndex := Nat.lor (colorBit1 <<< 1) colorBit0
        let paletteColor := Nat.land (bgp >>> (colorIndex * 2)) 0x03
        let fbIndex := (line * 160 + x) * 4
        (writePixel acc.1 fbIndex (dmgColors paletteColor),
         upd acc.2.1 (line * 160 + x) colorIndex, true)) (fb, bg, false)

/-- The BG-disabled branch of `PPU.renderScanline`: fill the scanline with
`DMG_COLORS[0]` and zero its color indices. -/
def fillScanlineColor0 (line : Nat) (fb bg : Nat → Nat) : (Nat → Nat) × (Nat → Nat) :=
  (List.range 160).foldl (fun acc (x : Nat) =>
    (writePixel acc.1 ((line * 160 + x) * 4) (dmgColors 0),
     upd acc.2 (line * 160 + x) 0)) (fb, bg)

/-- `PPU.renderScanline`: background and window when LCDC bit 0 is set (else
the blank fill), then sprites when LCDC bit 1 is set. -/
def PPU.renderScanline (p : PPU) (m : MMU) : PPU :=
  let lcdc := m.getIoReg 0x40
  let p1 :=
    if getBit lcdc 0 = 1 then
      let r := renderBackground m p.line p.framebuffer p.bgColorIndices
      let w := renderWindow m p.line p.windowLineCounter r.1 r.2
      { p with framebuffer := w.1, bgColorIndices := w.2.1,
               windowLineCounter := if w.2.2 then p.windowLineCounter + 1
                 else p.windowLineCounter }
    else
      let r := fillScanlineColor0 p.line p.framebuffer p.bgColorIndices
      { p with framebuffer := r.1, bgColorIndices := r.2 }
  if getBit lcdc 1 = 1 then
    { p1 with framebuffer := renderSprites m p1.line p1.bgColorIndices p1.framebuffer }
  else p1

/-- `PPU.setMode`: set the mode, mirror it into STAT bits 0–1, and raise the
STAT interrupt when the matching enable bit (3/4/5 for modes 0/1/2) is set. -/
def PPU.setMode (p : PPU) (m : MMU) (mode : LCDMode) : PPU × MMU :=
  let p := { p with mode := mode }
  let stat := Nat.lor (Nat.land (m.getIoReg 0x41) 0xFC) mode.toNat
  let m := m.setIoReg 0x41 stat
  let requestStatInt : Bool :=
    match mode with
    | .hblank => getBit stat 3 = 1
    | .vblank => getBit stat 4 = 1
    | .oamScan => getBit stat 5 = 1
    | .drawing => false
  let m := if requestStatInt then ppuRequestInterrupt m 1 else m
  (p, m)

/-- `PPU.checkLYCCoincidence`: maintain STAT bit 2 and the once-per-line LYC
interrupt latch. -/
def PPU.checkLYCCoincidence (p : PPU) (m : MMU) : PPU × MMU :=
  let lyc := m.getIoReg 0x45
  let stat := m.getIoReg 0x41
  if p.line = lyc then
    let stat := Nat.lor stat (1 <<< 2)
    let m := m.setIoReg 0x41 stat
    if !p.lycTriggered ∧ getBit stat 6 = 1 then
      ({ p with lycTriggered := true }, ppuRequestInterrupt m 1)
    else (p, m)
  else
    let stat := Nat.land stat (Nat.xor 0xFF (1 <<< 2))
    ({ p with lycTriggered := false }, m.setIoReg 0x41 stat)

/-- The bounded state-machine loop of `PPU.step` (the source's
`maxIterations` safety fuel is the recursion argument; each iteration
publishes LY, checks LYC, and performs at most one mode transition, breaking
when the accumulated cycles cannot finish the current mode). -/
def PPU.stepLoop (p : PPU) (m : MMU) : Nat → PPU × MMU
  | 0 => (p, m)
  | fuel + 1 =>
    if p.cycles > 0 then
      let m := m.setIoReg 0x44 p.line
      let pm := p.checkLYCCoincidence m
      let p := pm.1
      let m := pm.2
      match p.mode with
      | .oamScan =>
        if 80 ≤ p.cycles then
          let st := PPU.setMode { p with cycles := p.cycles - 80 } m .drawing
          PPU.stepLoop st.1 st.2 fuel
        else (p, m)
      | .drawing =>
        if 172 ≤ p.cycles then
          let p := PPU.renderScanline { p with cycles := p.cycles - 172 } m
          let st := PPU.setMode p m .hblank
          PPU.stepLoop st.1 st.2 fuel
        else (p, m)
      | .hblank =>
        if 204 ≤ p.cycles then
          let p := { p with cycles := p.cycles - 204, line := p.line + 1 }
          if 144 ≤ p.line then
            let st := PPU.setMode p m .vblank
            let m := ppuRequestInterrupt st.2 0
            PPU.stepLoop { st.1 with frameReady := true } m fuel
          else
            let st := PPU.setMode p m .oamScan
            PPU.stepLoop st.1 st.2 fuel
        else (p, m)
      | .vblank =>
        if 456 ≤ p.cycles then
          let p := { p with cycles := p.cycles - 456, line := p.line + 1 }
          if 153 < p.line then
            let p := { p with line := 0, windowLineCounter := 0, frameReady := false }
            let st := PPU.setMode p m .oamScan
            PPU.stepLoop st.1 st.2 fuel
          else
            PPU.stepLoop p m fuel
        else (p, m)
    else (p, m)

/-- `PPU.step`: when LCDC bit 7 is clear, reset to (line 0, OAM scan, 0
cycles) and zero LY — but only if the PPU is not already at line 0 in OAM
scan; otherwise accumulate cycles and run the state machine. -/
def PPU.step (p : PPU) (m : MMU) (cpuCycles : Nat) : PPU × MMU :=
  let lcdc := m.getIoReg 0x40
  let lcdEnabled := getBit lcdc 7
  if lcdEnabled = 0 then
    if p.line ≠ 0 ∨ p.mode ≠ .oamScan then
      ({ p with line := 0, cycles := 0, mode := .oamScan }, m.setIoReg 0x44 0)
    else (p, m)
  else
    PPU.stepLoop { p with cycles := p.cycles + cpuCycles } m 1000

/-! ### Bus reduction lemmas -/

theorem upd_same (s : Nat → Nat) (i v : Nat) : upd s i v i = v := by
  simp [upd]

theorem upd_ne (s : Nat → Nat) (i v j : Nat) (h : j ≠ i) : upd s i v j = s j := by
  simp [upd, h]

theorem to16Bit_eq_of_lt {a : Nat} (h : a < 65536) : to16Bit a = a :=
  Nat.mod_eq_of_lt h

theorem iteNo {c : Prop} {α : Sort u} [Decidable c] {t e : α} (h : ¬c) :
    (if c then t else e) = e := if_neg h

theorem iteYes {c : Prop} {α : Sort u} [Decidable c] {t e : α} (h : c) :
    (if c then t else e) = t := if_pos h

theorem MMU.read_vram (m : MMU) (a : Nat) (h1 : 0x8000 ≤ a) (h2 : a < 0xA000) :
    m.read a = m.vram (a - 0x8000) := by
  unfold MMU.read
  rw [to16Bit_eq_of_lt (by omega), iteNo (by omega), iteNo (by omega),
    iteYes (by omega)]

theorem MMU.read_wram (m : MMU) (a : Nat) (h1 : 0xC000 ≤ a) (h2 : a < 0xE000) :
    m.read a = m.wram (a - 0xC000) := by
  unfold MMU.read
  rw [to16Bit_eq_of_lt (by omega), iteNo (by omega), iteNo (by omega),
    iteNo (by omega), iteNo (by omega), iteYes (by omega)]

theorem MMU.read_echo (m : MMU) (a : Nat) (h1 : 0xE000 ≤ a) (h2 : a < 0xFE00) :
    m.read a = m.wram (a - 0xE000) := by
  unfold MMU.read
  rw [to16Bit_eq_of_lt (by omega), iteNo (by omega), iteNo (by omega),
    iteNo (by omega), iteNo (by omega), iteNo (by omega), iteYes (by omega)]

theorem MMU.read_oam (m : MMU) (a : Nat) (h1 : 0xFE00 ≤ a) (h2 : a < 0xFEA0) :
    m.read a = m.oam (a - 0xFE00) := by
  unfold MMU.read
  rw [to16Bit_eq_of_lt (by omega), iteNo (by omega), iteNo (by omega),
    iteNo (by omega), iteNo (by omega), iteNo (by omega), iteNo (by omega),
    iteYes (by omega)]

theorem MMU.read_ioRegion (m : MMU) (a : Nat) (h1 : 0xFF00 ≤ a) (h2 : a < 0xFF80) :
    m.read a = m.ioRegs (a - 0xFF00) := by
  unfold MMU.read
  rw [to16Bit_eq_of_lt (by omega), iteNo (by omega), iteNo (by omega),
    iteNo (by omega), iteNo (by omega), iteNo (by omega), iteNo (by omega),
    iteNo (by omega), iteNo (by omega), iteYes (by omega)]
  rfl

theorem MMU.write_wram (m : MMU) (a v : Nat) (h1 : 0xC000 ≤ a) (h2 : a < 0xE000) :
    m.write a v = { m with wram := upd m.wram (a - 0xC000) (to8Bit v) } := by
  unfold MMU.write
  rw [to16Bit_eq_of_lt (by omega), iteNo (by omega), iteNo (by omega),
    iteNo (by omega), iteYes (by omega)]

theorem MMU.write_echo (m : MMU) (a v : Nat) (h1 : 0xE000 ≤ a) (h2 : a < 0xFE00) :
    m.write a v = { m with wram := upd m.wram (a - 0xE000) (to8Bit v) } := by
  unfold MMU.write
  rw [to16Bit_eq_of_lt (by omega), iteNo (by omega), iteNo (by omega),
    iteNo (by omega), iteNo (by omega), iteYes (by omega)]

theorem MMU.write_ioRegion (m : MMU) (a v : Nat) (h1 : 0xFF00 ≤ a) (h2 : a < 0xFF80) :
    m.write a v = m.writeIoReg a (to8Bit v) := by
  unfold MMU.write
  rw [to16Bit_eq_of_lt (by omega), iteNo (by omega), iteNo (by omega),
    iteNo (by omega), iteNo (by omega), iteNo (by omega), iteNo (by omega),
    iteNo (by omega), iteYes (by omega)]

/-! ### C9 — echo RAM aliases WRAM -/

/-- C9: for every `k < 0x1E00`, a bus read of `0xE000 + k` returns the same
byte as a bus read of `0xC000 + k`; a bus write of `v` to either address
stores into the same WRAM cell `k`, and the value is then observed through
both addresses. -/
theorem echo_ram_aliases_wram (m : MMU) (k v : Nat)
    (hk : k < 0x1E00) (hv : v < 256) :
    m.read (0xE000 + k) = m.read (0xC000 + k) ∧
    (m.write (0xE000 + k) v).wram = upd m.wram k v ∧
    (m.write (0xC000 + k) v).wram = upd m.wram k v ∧
    (m.write (0xE000 + k) v).read (0xE000 + k) = v ∧
    (m.write (0xE000 + k) v).read (0xC000 + k) = v ∧
    (m.write (0xC000 + k) v).read (0xE000 + k) = v ∧
    (m.write (0xC000 + k) v).read (0xC000 + k) = v := by
  have hv8 : to8Bit v = v := Nat.mod_eq_of_lt hv
  have he : 0xE000 + k - 0xE000 = k := by omega
  have hc : 0xC000 + k - 0xC000 = k := by omega
  have hwe : m.write (0xE000 + k) v = { m with wram := upd m.wram k v } := by
    rw [MMU.write_echo m _ v (by omega) (by omega), he, hv8]
  have hwc : m.write (0xC000 + k) v = { m with wram := upd m.wram k v } := by
    rw [MMU.write_wram m _ v (by omega) (by omega), hc, hv8]
  refine ⟨?_, ?_, ?_, ?_, ?_, ?_, ?_⟩
  · rw [MMU.read_echo m _ (by omega) (by omega), MMU.read_wram m _ (by omega) (by omega),
      he, hc]
  · rw [hwe]
  · rw [hwc]
  · rw [hwe, MMU.read_echo _ _ (by omega) (by omega), he]; exact upd_same m.wram k v
  · rw [hwe, MMU.read_wram _ _ (by omega) (by omega), hc]; exact upd_same m.wram k v
  · rw [hwc, MMU.read_echo _ _ (by omega) (by omega), he]; exact upd_same m.wram k v
  · rw [hwc, MMU.read_wram _ _ (by omega) (by omega), hc]; exact upd_same m.wram k v

/-- A concrete bus used by witnesses. -/
def mmuW : MMU :=
  { vram := fun _ => 0
    wram := fun _ => 0x12
    oam := fun _ => 0
    hram := fun _ => 0
    ioRegs := fun _ => 0
    interruptEnable := 0
    cartridge := none
    timer := none }

/-- Witness for C9 at `k = 5`, `v = 0xAB`. -/
theorem echo_ram_aliases_wram_witness :
    mmuW.read (0xE000 + 5) = mmuW.read (0xC000 + 5) ∧
    (mmuW.write (0xE000 + 5) 0xAB).wram = upd mmuW.wram 5 0xAB ∧
    (mmuW.write (0xC000 + 5) 0xAB).wram = upd mmuW.wram 5 0xAB ∧
    (mmuW.write (0xE000 + 5) 0xAB).read (0xE000 + 5) = 0xAB ∧
    (mmuW.write (0xE000 + 5) 0xAB).read (0xC000 + 5) = 0xAB ∧
    (mmuW.write (0xC000 + 5) 0xAB).read (0xE000 + 5) = 0xAB ∧
    (mmuW.write (0xC000 + 5) 0xAB).read (0xC000 + 5) = 0xAB :=
  echo_ram_aliases_wram mmuW 5 0xAB (by decide) (by decide)

/-- Reads below the I/O file do not depend on the I/O register contents. -/
theorem MMU.read_ioRegs_congr (m : MMU) (u : Nat → Nat) (a : Nat) (h : a < 0xFF00) :
    ({ m with ioRegs := u } : MMU).read a = m.read a := by
  have h16 : to16Bit a = a := to16Bit_eq_of_lt (by omega)
  simp only [MMU.read, h16]
  split_ifs <;> first | rfl | omega

/-! ### C4 — writes to DIV (0xFF04) reset the divider -/

/-- C4 (spec-modelled timer hook): with a timer attached to the bus, a write
of any value `v` to `0xFF04` zeroes the DIV register and the timer's internal
DIV cycle accumulator, so a subsequent bus read of `0xFF04` returns 0. -/
theorem div_write_resets (m : MMU) (v : Nat) (t : Timer) (ht : m.timer = some t) :
    (m.write 0xFF04 v).ioRegs 0x04 = 0 ∧
    (m.write 0xFF04 v).timer = some { t with divCounter := 0 } ∧
    (m.write 0xFF04 v).read 0xFF04 = 0 := by
  have hw : m.write 0xFF04 v
      = { m with ioRegs := upd m.ioRegs 0x04 0,
                 timer := some { t with divCounter := 0 } } := by
    rw [MMU.write_ioRegion m 0xFF04 v (by omega) (by omega)]
    unfold MMU.writeIoReg
    rw [if_pos (Or.inl rfl), ht]
    rfl
  refine ⟨?_, ?_, ?_⟩
  · rw [hw]; exact upd_same m.ioRegs 0x04 0
  · rw [hw]
  · rw [hw, MMU.read_ioRegion _ 0xFF04 (by omega) (by omega)]
    exact upd_same m.ioRegs 0x04 0

/-- A bus with an attached timer, used by the C4 witness. -/
def mmuTimerW : MMU :=
  { mmuW with ioRegs := fun a => if a = 0x04 then 0xAB else 0,
              timer := some { divCounter := 100, timaCounter := 3 } }

/-- Witness for C4: writing `0xFF` to DIV zeroes DIV on a bus whose DIV was
0xAB and whose timer accumulator was 100. -/
theorem div_write_resets_witness :
    (mmuTimerW.write 0xFF04 0xFF).ioRegs 0x04 = 0 ∧
    (mmuTimerW.write 0xFF04 0xFF).timer
      = some { divCounter := 0, timaCounter := 3 } ∧
    (mmuTimerW.write 0xFF04 0xFF).read 0xFF04 = 0 :=
  div_write_resets mmuTimerW 0xFF { divCounter := 100, timaCounter := 3 } rfl

/-! ### C5 — the DMA write copies 160 bytes into OAM -/

/-- C5 (spec-modelled DMA transfer): a bus write of `v < 256` to `0xFF46`
atomically fills OAM: for every `i < 160`, `OAM[i]` becomes the byte the bus
read of `(v << 8) + i` returned at DMA time (the capture state has the DMA
register already stored, which only matters when the source page is the I/O
file itself; for every source page `v < 0xFF` the captured byte equals the
pre-write bus read).  The DMA register also holds `v` afterwards. -/
theorem dma_write_copies_to_oam (m : MMU) (v i : Nat) (hv : v < 256) (hi : i < 160) :
    ((m.write 0xFF46 v).oam i
      = ({ m with ioRegs := upd m.ioRegs 0x46 v } : MMU).read ((v <<< 8) + i)) ∧
    (v < 0xFF → (m.write 0xFF46 v).oam i = m.read ((v <<< 8) + i)) ∧
    (m.write 0xFF46 v).ioRegs 0x46 = v := by
  have hv8 : to8Bit v = v := Nat.mod_eq_of_lt hv
  have hw : m.write 0xFF46 v
      = MMU.dmaTransfer { m with ioRegs := upd m.ioRegs 0x46 v } v := by
    rw [MMU.write_ioRegion m 0xFF46 v (by omega) (by omega), hv8]
    unfold MMU.writeIoReg
    rw [if_neg (by decide), if_neg (by decide), if_pos rfl]
  have hoam : (m.write 0xFF46 v).oam i
      = ({ m with ioRegs := upd m.ioRegs 0x46 v } : MMU).read ((v <<< 8) + i) := by
    rw [hw]
    show (if i < 160 then _ else _) = _
    rw [if_pos hi]
  refine ⟨hoam, ?_, ?_⟩
  · intro hv'
    rw [hoam, MMU.read_ioRegs_congr]
    have : v <<< 8 = v * 256 := Nat.shiftLeft_eq v 8
    omega
  · rw [hw]
    show upd m.ioRegs 0x46 v 0x46 = v
    exact upd_same m.ioRegs 0x46 v

/-- A bus whose WRAM page 0xC2 holds recognisable bytes, for the C5 witness. -/
def mmuDmaW : MMU :=
  { mmuW with wram := fun k => (k + 7) % 256 }

/-- Witness for C5 at source page `v = 0xC2`, index `i = 9`: the copied byte
is WRAM byte `0x0200 + 9`, i.e. `(0x209 + 7) % 256 = 0x10`. -/
theorem dma_write_copies_to_oam_witness :
    ((mmuDmaW.write 0xFF46 0xC2).oam 9
      = ({ mmuDmaW with ioRegs := upd mmuDmaW.ioRegs 0x46 0xC2 } : MMU).read ((0xC2 <<< 8) + 9)) ∧
    (0xC2 < 0xFF → (mmuDmaW.write 0xFF46 0xC2).oam 9 = mmuDmaW.read ((0xC2 <<< 8) + 9)) ∧
    (mmuDmaW.write 0xFF46 0xC2).ioRegs 0x46 = 0xC2 :=
  dma_write_copies_to_oam mmuDmaW 0xC2 9 (by decide) (by decide)

/-! ### C1 — HALT behaviour of `CPU.step` -/

/-- `CPU.handleInterrupts` dispatches nothing when IME is clear, or when no
bit 0–4 of `IE & IF` is set. -/
theorem handleInterrupts_no_dispatch (c : CPU)
    (h : c.ime = false ∨ ∀ b, b < 5 →
      Nat.land (Nat.land c.mmu.interruptEnable c.mmu.getInterruptFlag) (1 <<< b) = 0) :
    c.handleInterrupts = (0, c) := by
  unfold CPU.handleInterrupts
  rcases h with h | h
  · rw [h]
    rfl
  · rcases hi : c.ime with _ | _
    · rfl
    · rw [if_neg (by decide : ¬((!true : Bool) = true))]
      by_cases ht : Nat.land c.mmu.interruptEnable c.mmu.getInterruptFlag = 0
      · simp [ht]
      · rw [if_neg ht]
        unfold interruptTable CPU.serviceLoop
        rw [if_neg (not_not_intro (h 0 (by omega)))]
        unfold CPU.serviceLoop
        rw [if_neg (not_not_intro (h 1 (by omega)))]
        unfold CPU.serviceLoop
        rw [if_neg (not_not_intro (h 2 (by omega)))]
        unfold CPU.serviceLoop
        rw [if_neg (not_not_intro (h 3 (by omega)))]
        unfold CPU.serviceLoop
        rw [if_neg (not_not_intro (h 4 (by omega)))]
        rfl

/-- C1 amended: while halted (with no EI effect pending), if IME is clear or
no enabled interrupt among bits 0–4 is pending, `CPU.step` returns 4 cycles
and changes nothing at all — in particular, with IME clear a pending
interrupt does *not* clear the halted flag: the CPU stays halted. -/
theorem halted_step_stalls (c : CPU) (hh : c.halted = true) (hs : c.imeScheduled = false)
    (h : c.ime = false ∨ ∀ b, b < 5 →
      Nat.land (Nat.land c.mmu.interruptEnable c.mmu.getInterruptFlag) (1 <<< b) = 0) :
    CPU.step c = .ok 4 c := by
  unfold CPU.step
  rw [hs]
  simp only [Bool.false_eq_true, if_false, handleInterrupts_no_dispatch c h]
  rw [iteNo (by omega), if_pos hh]

/-- C1 counterexample state: a halted CPU with IME clear while VBlank is both
enabled (IE bit 0) and pending (IF bit 0). -/
def cpuHaltPending : CPU :=
  { registers := { a := 1, b := 0, c := 0x13, d := 0, e := 0xD8, f := 0xB0,
                   h := 1, l := 0x4D, sp := 0xFFFE, pc := 0x0100 }
    mmu := { mmuW with interruptEnable := 1, ioRegs := fun a => if a = 0x0F then 1 else 0 }
    halted := true
    stopped := false
    ime := false
    imeScheduled := false }

/-- C1 counterexample: with an interrupt pending (`IE & IF ≠ 0`) and IME
clear, `CPU.step` of a halted CPU returns 4 cycles and leaves the state
entirely unchanged — the halted flag is *not* cleared and execution does not
resume, contradicting the claimed HALT wake-up. -/
theorem halt_pending_ime_clear_no_wake :
    Nat.land cpuHaltPending.mmu.interruptEnable cpuHaltPending.mmu.getInterruptFlag ≠ 0 ∧
    cpuHaltPending.ime = false ∧
    cpuHaltPending.halted = true ∧
    CPU.step cpuHaltPending = .ok 4 cpuHaltPending ∧
    cpuHaltPending.halted = true := by
  refine ⟨by decide, rfl, rfl, ?_, rfl⟩
  exact halted_step_stalls cpuHaltPending rfl rfl (Or.inl rfl)

/-- A halted CPU with nothing pending, for the C1 witness. -/
def cpuHaltIdle : CPU :=
  { cpuHaltPending with
      mmu := { mmuW with interruptEnable := 0, ioRegs := fun _ => 0 } }

/-- Witness for C1 (amended): a halted CPU with no pending interrupt stalls
for 4 cycles and changes nothing. -/
theorem halted_step_stalls_witness : CPU.step cpuHaltIdle = .ok 4 cpuHaltIdle :=
  halted_step_stalls cpuHaltIdle rfl rfl (Or.inl rfl)

/-! ### C2 — interrupt dispatch -/

/-- `CPU.step` with no scheduled IME, written with the interrupt result and
fetch result as explicit projections. -/
theorem CPU.step_eq_of_not_scheduled (c : CPU) (hs : c.imeScheduled = false) :
    CPU.step c =
      (if c.handleInterrupts.1 > 0 then
        StepResult.ok c.handleInterrupts.1 { c.handleInterrupts.2 with halted := false }
      else if c.handleInterrupts.2.halted = true then StepResult.ok 4 c.handleInterrupts.2
      else if c.handleInterrupts.2.readPC.1 = 0xCB then StepResult.unmodelled 0xCB
      else execInstruction c.handleInterrupts.2.readPC.1 c.handleInterrupts.2.readPC.2) := by
  obtain ⟨regs, mm, hal, stp, im, isch⟩ := c
  simp only at hs
  subst hs
  rfl

/-- `CPU.step` when interrupt handling dispatches with 20 cycles. -/
theorem CPU.step_of_dispatch (c : CPU) (hs : c.imeScheduled = false) (d : CPU)
    (h : c.handleInterrupts = (20, d)) :
    CPU.step c = .ok 20 { d with halted := false } := by
  rw [CPU.step_eq_of_not_scheduled c hs, h]
  rfl

/-- A scheduled IME is consumed before interrupt handling: stepping with
`imeScheduled = true` equals stepping the state with IME already applied. -/
theorem CPU.step_of_scheduled (c : CPU) (hs : c.imeScheduled = true) :
    CPU.step c = CPU.step { c with ime := true, imeScheduled := false } := by
  obtain ⟨regs, mm, hal, stp, im, isch⟩ := c
  simp only at hs
  subst hs
  rfl

/-- C2 amended: for every CPU state with `ime = true` and a pending *masked*
interrupt — a set bit `b < 5` of `IE & IF` (the code only examines bits 0–4;
`IE & IF ≠ 0` alone does not suffice, see the counterexample) — one
`CPU.step` selects the lowest such bit, clears it in IF, clears IME, pushes
the current PC, jumps to vector `0x40 + 8·b ∈ {0x40, 0x48, 0x50, 0x58, 0x60}`,
clears HALT, and returns 20 cycles. -/
theorem interrupt_dispatch (c : CPU) (b : Nat) (hime : c.ime = true) (hb : b < 5)
    (hset : Nat.land (Nat.land c.mmu.interruptEnable c.mmu.getInterruptFlag) (1 <<< b) ≠ 0)
    (hmin : ∀ j, j < b →
      Nat.land (Nat.land c.mmu.interruptEnable c.mmu.getInterruptFlag) (1 <<< j) = 0) :
    CPU.step c = .ok 20
      (let mmNew := c.mmu.setInterruptFlag (Nat.land c.mmu.getInterruptFlag (Nat.xor 0xFF (1 <<< b)))
       let c0 : CPU := { c with ime := false, imeScheduled := false, mmu := mmNew }
       let c1 := c0.pushStack c.registers.pc
       { c1 with registers := { c1.registers with pc := 0x40 + 8 * b },
                 halted := false }) := by
  obtain ⟨regs, mm, hal, stp, im, isch⟩ := c
  simp only at hime hset hmin
  subst hime
  have ht : Nat.land mm.interruptEnable mm.getInterruptFlag ≠ 0 := by
    intro h0
    exact hset (by rw [h0]; exact Nat.zero_and (1 <<< b))
  have hrun :
      CPU.handleInterrupts
          { registers := regs, mmu := mm, halted := hal, stopped := stp,
            ime := true, imeScheduled := false }
        = (20,
          (let mmNew := mm.setInterruptFlag (Nat.land mm.getInterruptFlag (Nat.xor 0xFF (1 <<< b)))
           let c0 : CPU := { registers := regs, mmu := mmNew, halted := hal,
                             stopped := stp, ime := false, imeScheduled := false }
           let c1 := c0.pushStack regs.pc
           { c1 with registers := { c1.registers with pc := 0x40 + 8 * b } })) := by
    unfold CPU.handleInterrupts
    rw [if_neg (by decide : ¬((!true : Bool) = true)), if_neg ht]
    unfold interruptTable
    interval_cases b
    · unfold CPU.serviceLoop
      rw [if_pos hset]
    · unfold CPU.serviceLoop
      rw [if_neg (not_not_intro (hmin 0 (by omega)))]
      unfold CPU.serviceLoop
      rw [if_pos hset]
    · unfold CPU.serviceLoop
      rw [if_neg (not_not_intro (hmin 0 (by omega)))]
      unfold CPU.serviceLoop
      rw [if_neg (not_not_intro (hmin 1 (by omega)))]
      unfold CPU.serviceLoop
      rw [if_pos hset]
    · unfold CPU.serviceLoop
      rw [if_neg (not_not_intro (hmin 0 (by omega)))]
      unfold CPU.serviceLoop
      rw [if_neg (not_not_intro (hmin 1 (by omega)))]
      unfold CPU.serviceLoop
      rw [if_neg (not_not_intro (hmin 2 (by omega)))]
      unfold CPU.serviceLoop
      rw [if_pos hset]
    · unfold CPU.serviceLoop
      rw [if_neg (not_not_intro (hmin 0 (by omega)))]
      unfold CPU.serviceLoop
      rw [if_neg (not_not_intro (hmin 1 (by omega)))]
      unfold CPU.serviceLoop
      rw [if_neg (not_not_intro (hmin 2 (by omega)))]
      unfold CPU.serviceLoop
      rw [if_neg (not_not_intro (hmin 3 (by omega)))]
      unfold CPU.serviceLoop
      rw [if_pos hset]
  cases isch
  · exact CPU.step_of_dispatch _ rfl _ hrun
  · rw [CPU.step_of_scheduled _ rfl]
    exact CPU.step_of_dispatch _ rfl _ hrun

/-- A CPU with IME set, halted, and the Timer interrupt (bit 2) enabled and
pending, for the C2 witness. -/
def cpuDispatchW : CPU :=
  { registers := { a := 1, b := 0, c := 0x13, d := 0, e := 0xD8, f := 0xB0,
                   h := 1, l := 0x4D, sp := 0xD000, pc := 0xC123 }
    mmu := { mmuW with interruptEnable := 0x04, ioRegs := fun a => if a = 0x0F then 0x04 else 0 }
    halted := true
    stopped := false
    ime := true
    imeScheduled := false }

/-- Witness for C2 at bit `b = 2` (Timer): dispatch clears IF bit 2, clears
IME, pushes PC `0xC123`, jumps to `0x50`, clears HALT, returns 20 cycles. -/
theorem interrupt_dispatch_witness :
    CPU.step cpuDispatchW = .ok 20
      (let mmNew := cpuDispatchW.mmu.setInterruptFlag (Nat.land cpuDispatchW.mmu.getInterruptFlag (Nat.xor 0xFF (1 <<< 2)))
       let c0 : CPU := { cpuDispatchW with ime := false, imeScheduled := false, mmu := mmNew }
       let c1 := c0.pushStack cpuDispatchW.registers.pc
       { c1 with registers := { c1.registers with pc := 0x40 + 8 * 2 },
                 halted := false }) :=
  interrupt_dispatch cpuDispatchW 2 rfl (by omega) (by decide)
    (by intro j hj; interval_cases j <;> decide)

/-- A CPU with IME set whose only pending-and-enabled interrupt bits are
outside 0–4 (`IE = IF = 0x20`), and a NOP at PC, for the C2
counterexample. -/
def cpuHighPending : CPU :=
  { registers := { a := 1, b := 0, c := 0x13, d := 0, e := 0xD8, f := 0xB0,
                   h := 1, l := 0x4D, sp := 0xD000, pc := 0xC000 }
    mmu := { mmuW with wram := fun _ => 0, interruptEnable := 0x20,
                       ioRegs := fun a => if a = 0x0F then 0x20 else 0 }
    halted := false
    stopped := false
    ime := true
    imeScheduled := false }

/-- C2 counterexample: `ime = true` and `IE & IF = 0x20 ≠ 0`, yet `CPU.step`
does not dispatch: it executes the NOP at PC and returns 4 cycles (not 20),
IF is unchanged and PC is not set to any vector — the dispatch loop only
examines bits 0–4, so the claim's premise `(IE & IF) ≠ 0` is too weak. -/
theorem pending_high_bits_no_dispatch :
    cpuHighPending.ime = true ∧
    Nat.land cpuHighPending.mmu.interruptEnable cpuHighPending.mmu.getInterruptFlag ≠ 0 ∧
    CPU.step cpuHighPending
      = .ok 4 { cpuHighPending with
          registers := { cpuHighPending.registers with pc := 0xC001 } } :=
  ⟨rfl, by decide, by rfl⟩

/-! ### C3 — undefined primary opcodes -/

/-- `CPU.step` when no interrupt dispatches and the CPU is not halted:
fetch and execute. -/
theorem CPU.step_fetch (c : CPU) (hs : c.imeScheduled = false) (hh : c.halted = false)
    (hni : c.handleInterrupts = (0, c)) :
    CPU.step c
      = (if c.readPC.1 = 0xCB then .unmodelled 0xCB
         else execInstruction c.readPC.1 c.readPC.2) := by
  rw [CPU.step_eq_of_not_scheduled c hs, hni]
  rw [if_neg (by simp : ¬((0, c).1 > 0))]
  rw [if_neg (by simp [hh] : ¬((0, c).2.halted = true))]

/-- C3 amended: for every CPU state that actually reaches the fetch — not
halted, no EI pending, and no interrupt dispatch (IME clear or no pending
bit 0–4) — whose PC points at one of the eleven undefined primary opcodes,
`CPU.step` fails by throwing the error `Illegal opcode 0x.. executed`, which
identifies the opcode; the error does not record the PC (see the
counterexample), and no cycle count is returned, so the core cannot
continue. -/
theorem illegal_opcode_throws (c : CPU) (op : Nat)
    (hh : c.halted = false) (hs : c.imeScheduled = false)
    (hnd : c.ime = false ∨ ∀ b, b < 5 →
      Nat.land (Nat.land c.mmu.interruptEnable c.mmu.getInterruptFlag) (1 <<< b) = 0)
    (hmem : c.mmu.read c.registers.pc = op)
    (hop : op ∈ illegalOpcodes) :
    CPU.step c = .thrown (illegalOpcodeMessage op) := by
  rw [CPU.step_fetch c hs hh (handleInterrupts_no_dispatch c hnd)]
  have hfetch : c.readPC.1 = op := hmem
  rw [hfetch]
  simp only [illegalOpcodes, List.mem_cons, List.not_mem_nil, or_false] at hop
  rcases hop with h | h | h | h | h | h | h | h | h | h | h <;> subst h <;> rfl

/-- The state for the C3 witness: PC in WRAM pointing at opcode 0xD3. -/
def cpuIllW : CPU :=
  { cpuHighPending with
      registers := { cpuHighPending.registers with pc := 0xC000 }
      mmu := { mmuW with wram := fun k => if k = 0 then 0xD3 else 0 }
      ime := false }

/-- Witness for C3: stepping `cpuIllW` (PC at a 0xD3 byte) throws
`Illegal opcode 0xD3 executed`. -/
theorem illegal_opcode_throws_witness :
    CPU.step cpuIllW = .thrown (illegalOpcodeMessage 0xD3) :=
  illegal_opcode_throws cpuIllW 0xD3 rfl rfl (Or.inl rfl) (by decide) (by decide)

/-- Two CPU states at different PCs, each pointing at opcode 0xD3, and one
halted state pointing at 0xD3. -/
def cpuIllA : CPU :=
  { cpuIllW with
      mmu := { mmuW with wram := fun k => if k = 0 ∨ k = 0x100 then 0xD3 else 0 } }

/-- As `cpuIllA` but with PC `0xC100`. -/
def cpuIllB : CPU :=
  { cpuIllA with registers := { cpuIllA.registers with pc := 0xC100 } }

/-- As `cpuIllA` but halted. -/
def cpuIllHalted : CPU :=
  { cpuIllA with halted := true }

/-- C3 counterexample: (a) the thrown error value is *identical* for two
states whose PCs differ — so the error cannot carry the PC, contrary to the
claim's `IllegalOpcode(opcode, pc)`; (b) a *halted* CPU whose PC points at
0xD3 does not fail at all (it stalls for 4 cycles), so the claim's "for
every CPU state" is also too strong. -/
theorem illegal_opcode_error_carries_no_pc :
    cpuIllA.registers.pc ≠ cpuIllB.registers.pc ∧
    cpuIllA.mmu.read cpuIllA.registers.pc = 0xD3 ∧
    cpuIllB.mmu.read cpuIllB.registers.pc = 0xD3 ∧
    CPU.step cpuIllA = .thrown "Illegal opcode 0xD3 executed" ∧
    CPU.step cpuIllB = .thrown "Illegal opcode 0xD3 executed" ∧
    cpuIllHalted.halted = true ∧
    cpuIllHalted.mmu.read cpuIllHalted.registers.pc = 0xD3 ∧
    CPU.step cpuIllHalted = .ok 4 cpuIllHalted :=
  ⟨by decide, by decide, by decide, by rfl, by rfl, rfl, by decide, by rfl⟩

/-! ### C7 — MBC1 low-bank substitution -/

/-- A 1 MiB (64-bank) MBC1 cartridge at its reset banking state whose ROM
byte at every address is the 16 KiB bank number it belongs to. -/
def mbc1W : MBC1 :=
  { rom := fun i => (i / 0x4000) % 256
    ram := fun _ => 0
    ramEnabled := false
    romBankLow := 0x01
    ramBankOrRomBankHigh := 0x00
    bankingMode := 0
    romBankCount := 64
    ramBankCount := 0 }

/-- A bus with the `mbc1W` cartridge loaded. -/
def mmuMbcW : MMU := { mmuW with cartridge := some mbc1W }

/-- C7 counterexample: on a 1 MiB MBC1 cartridge with high bank bits and mode
at reset, a CPU write of `0x20` to `0x2000` makes the effective switchable
bank `0x01`, not `0x21`: the low five bits of `0x20` are `0`, and the 0→1
substitution applies to that masked value before combining.  A read of
`0x4000` returns ROM byte `0x01 · 0x4000` (here `0x01`), not ROM byte
`0x21 · 0x4000` (here `0x21`). -/
theorem mbc1_write20_selects_bank1 :
    (mmuMbcW.write 0x2000 0x20).read 0x4000 = 0x01 ∧
    mbc1W.rom (0x21 * 0x4000) = 0x21 ∧
    (0x01 : Nat) ≠ 0x21 :=
  ⟨by decide, by decide, by decide⟩

/-- C7 amended: a write of any value `v` with `v & 0x1F = 0` to the
`0x2000`–`0x3FFF` control range sets the 5-bit low bank register to `0x01`
(not to `v & 0x1F = 0`), so the switchable window reads from the bank
`(high << 5) | 1` (masked to the bank count).  The substituted combined
indices for high bits 0/1/2/3 are `0x01/0x21/0x41/0x61` — bank indices
`0x20/0x40/0x60` are never effective. -/
theorem mbc1_low_bank_substitution (c : MBC1) (a v : Nat)
    (ha1 : 0x2000 ≤ a) (ha2 : a ≤ 0x3FFF) (hv : Nat.land v 0x1F = 0) :
    ((c.writeControl a v).romBankLow = 0x01) ∧
    (∀ off, (c.writeControl a v).readROMBank1 off
      = c.rom (Nat.land (Nat.lor (c.ramBankOrRomBankHigh <<< 5) 1) (c.romBankCount - 1) * 0x4000 + off)) ∧
    Nat.lor (0 <<< 5) 1 = 0x01 ∧ Nat.lor (1 <<< 5) 1 = 0x21 ∧
    Nat.lor (2 <<< 5) 1 = 0x41 ∧ Nat.lor (3 <<< 5) 1 = 0x61 := by
  have hw : c.writeControl a v = { c with romBankLow := 0x01 } := by
    unfold MBC1.writeControl
    rw [iteNo (by omega), if_pos ⟨ha1, ha2⟩, hv]
    rfl
  refine ⟨by rw [hw], ?_, by decide, by decide, by decide, by decide⟩
  intro off
  rw [hw]
  unfold MBC1.readROMBank1
  rfl

/-- `mbc1W` with high bank bits `1`, for the C7 witness. -/
def mbc1HighW : MBC1 := { mbc1W with ramBankOrRomBankHigh := 1 }

/-- Witness for C7: with high bits 1, a write of `0x20` to `0x2000` makes the
switchable window read bank `(1 << 5) | 1 = 0x21`. -/
theorem mbc1_low_bank_substitution_witness :
    (mbc1HighW.writeControl 0x2000 0x20).readROMBank1 0
      = mbc1HighW.rom (Nat.land (Nat.lor (mbc1HighW.ramBankOrRomBankHigh <<< 5) 1) (mbc1HighW.romBankCount - 1) * 0x4000 + 0) :=
  (mbc1_low_bank_substitution mbc1HighW 0x2000 0x20 (by decide) (by decide) (by decide)).2.1 0

/-! ### C6 — joypad matrix read-back -/

theorem land_eq_and (a b : Nat) : Nat.land a b = a &&& b := rfl

theorem lor_eq_or (a b : Nat) : Nat.lor a b = a ||| b := rfl

theorem testBit_mod256 (x i : Nat) (h : i < 8) :
    Nat.testBit (x % 256) i = Nat.testBit x i := by
  rw [show (256 : Nat) = 2 ^ 8 by norm_num, Nat.testBit_mod_two_pow]
  simp [h]

theorem MMU.write_p1 (m : MMU) (w : Nat) :
    (m.write 0xFF00 w).ioRegs 0 = to8Bit w := by
  rw [MMU.write_ioRegion m 0xFF00 w (by omega) (by omega)]
  unfold MMU.writeIoReg
  rw [if_neg (by decide), if_neg (by decide), if_neg (by decide)]
  simp [upd]

/-- C6 amended: `Joypad.updateJoypadRegister` rebuilds P1 bits 0–3 as
active-low outputs of exactly one group: if the button select line is active
(P1 bit 5 = 0) the four bits report the action buttons — *even when the
direction select line is also active, the direction keys are ignored*; only
if bit 5 is inactive and bit 4 active do the bits report the direction keys;
if neither line is active the bits are all 1 (released). -/
theorem joypad_register_update (j : Joypad) (m : MMU) :
    (Nat.land (m.ioRegs 0) 0x20 = 0 →
      Nat.testBit ((j.updateJoypadRegister m).ioRegs 0) 3 = !j.buttonStates 7 ∧
      Nat.testBit ((j.updateJoypadRegister m).ioRegs 0) 2 = !j.buttonStates 6 ∧
      Nat.testBit ((j.updateJoypadRegister m).ioRegs 0) 1 = !j.buttonStates 5 ∧
      Nat.testBit ((j.updateJoypadRegister m).ioRegs 0) 0 = !j.buttonStates 4) ∧
    (Nat.land (m.ioRegs 0) 0x20 ≠ 0 → Nat.land (m.ioRegs 0) 0x10 = 0 →
      Nat.testBit ((j.updateJoypadRegister m).ioRegs 0) 3 = !j.buttonStates 3 ∧
      Nat.testBit ((j.updateJoypadRegister m).ioRegs 0) 2 = !j.buttonStates 2 ∧
      Nat.testBit ((j.updateJoypadRegister m).ioRegs 0) 1 = !j.buttonStates 1 ∧
      Nat.testBit ((j.updateJoypadRegister m).ioRegs 0) 0 = !j.buttonStates 0) ∧
    (Nat.land (m.ioRegs 0) 0x20 ≠ 0 → Nat.land (m.ioRegs 0) 0x10 ≠ 0 →
      Nat.testBit ((j.updateJoypadRegister m).ioRegs 0) 3 = true ∧
      Nat.testBit ((j.updateJoypadRegister m).ioRegs 0) 2 = true ∧
      Nat.testBit ((j.updateJoypadRegister m).ioRegs 0) 1 = true ∧
      Nat.testBit ((j.updateJoypadRegister m).ioRegs 0) 0 = true) := by
  have hread : m.read 0xFF00 = m.ioRegs 0 :=
    MMU.read_ioRegion m 0xFF00 (by omega) (by omega)
  simp only [Joypad.updateJoypadRegister]
  rw [hread]
  refine ⟨fun h5 => ?_, fun h5 h4 => ?_, fun h5 h4 => ?_⟩
  · rw [if_pos h5, MMU.write_p1]
    unfold to8Bit
    cases h7 : j.buttonStates 7 <;> cases h6 : j.buttonStates 6 <;>
      cases hb5 : j.buttonStates 5 <;> cases hb4 : j.buttonStates 4 <;>
      simp +decide [testBit_mod256, land_eq_and, lor_eq_or, Nat.testBit_and, Nat.testBit_or]
  · rw [if_neg h5, if_pos h4, MMU.write_p1]
    unfold to8Bit
    cases h3 : j.buttonStates 3 <;> cases h2 : j.buttonStates 2 <;>
      cases h1 : j.buttonStates 1 <;> cases h0 : j.buttonStates 0 <;>
      simp +decide [testBit_mod256, land_eq_and, lor_eq_or, Nat.testBit_and, Nat.testBit_or]
  · rw [if_neg h5, if_neg h4, MMU.write_p1]
    unfold to8Bit
    simp +decide [testBit_mod256, land_eq_and, lor_eq_or, Nat.testBit_and, Nat.testBit_or]

/-- A joypad with only RIGHT (direction group, index 0) pressed. -/
def joyRightW : Joypad :=
  { buttonStates := fun i => i == 0, previousStates := fun _ => false }

/-- A bus whose P1 has both select lines active (bits 5 and 4 both 0). -/
def mmuJoyBothW : MMU := { mmuW with ioRegs := fun _ => 0 }

/-- C6 counterexample: with both select lines active and RIGHT pressed (and
no action button pressed), the rebuilt P1 has bit 0 *set* (released): the
direction group's output is ignored because the `else if` chain reports the
button group alone, contradicting the claimed active-low combination of both
groups. -/
theorem joypad_both_selected_ignores_directions :
    Nat.land (mmuJoyBothW.ioRegs 0) 0x20 = 0 ∧
    Nat.land (mmuJoyBothW.ioRegs 0) 0x10 = 0 ∧
    joyRightW.buttonStates 0 = true ∧
    Nat.testBit ((joyRightW.updateJoypadRegister mmuJoyBothW).ioRegs 0) 0 = true :=
  ⟨by decide, by decide, by decide, by decide⟩

/-- A joypad with START (action group, index 7) and UP (direction group,
index 2) pressed. -/
def joyStartUpW : Joypad :=
  { buttonStates := fun i => i == 7 || i == 2, previousStates := fun _ => false }

/-- A bus whose P1 selects the button group only (bit 5 = 0, bit 4 = 1). -/
def mmuJoyBtnW : MMU := { mmuW with ioRegs := fun a => if a = 0 then 0x10 else 0 }

/-- Witness for C6: with the button group selected, pressed START clears P1
bit 3 while the other three action bits stay released. -/
theorem joypad_register_update_witness :
    Nat.testBit ((joyStartUpW.updateJoypadRegister mmuJoyBtnW).ioRegs 0) 3 = !joyStartUpW.buttonStates 7 ∧
    Nat.testBit ((joyStartUpW.updateJoypadRegister mmuJoyBtnW).ioRegs 0) 2 = !joyStartUpW.buttonStates 6 ∧
    Nat.testBit ((joyStartUpW.updateJoypadRegister mmuJoyBtnW).ioRegs 0) 1 = !joyStartUpW.buttonStates 5 ∧
    Nat.testBit ((joyStartUpW.updateJoypadRegister mmuJoyBtnW).ioRegs 0) 0 = !joyStartUpW.buttonStates 4 :=
  (joypad_register_update joyStartUpW mmuJoyBtnW).1 (by decide)

/-! ### C10 — `PPU.step` with the LCD disabled -/

/-- C10 amended: when LCDC bit 7 is clear, `PPU.step` writes no framebuffer
pixel and touches neither the BG-color-index buffer, the frame-ready latch,
the window line counter, nor the LYC latch; afterwards the internal line is 0
and the mode is OAM scan.  But the reset of the cycle accumulator and the
`LY = 0` write happen only when (line, mode) differed from (0, OAM scan):
when the PPU is already at line 0 in OAM scan, the call changes nothing at
all — a nonzero accumulator is left in place (see the counterexample). -/
theorem ppu_step_lcd_disabled (p : PPU) (m : MMU) (cycles : Nat)
    (h : getBit (m.getIoReg 0x40) 7 = 0) :
    (PPU.step p m cycles).1.framebuffer = p.framebuffer ∧
    (PPU.step p m cycles).1.bgColorIndices = p.bgColorIndices ∧
    (PPU.step p m cycles).1.frameReady = p.frameReady ∧
    (PPU.step p m cycles).1.windowLineCounter = p.windowLineCounter ∧
    (PPU.step p m cycles).1.lycTriggered = p.lycTriggered ∧
    (PPU.step p m cycles).1.line = 0 ∧
    (PPU.step p m cycles).1.mode = .oamScan ∧
    (¬(p.line = 0 ∧ p.mode = .oamScan) →
      (PPU.step p m cycles).1.cycles = 0 ∧
      (PPU.step p m cycles).2 = m.setIoReg 0x44 0) ∧
    (p.line = 0 ∧ p.mode = .oamScan → PPU.step p m cycles = (p, m)) := by
  have hstep : PPU.step p m cycles
      = (if p.line ≠ 0 ∨ p.mode ≠ .oamScan then
          ({ p with line := 0, cycles := 0, mode := .oamScan }, m.setIoReg 0x44 0)
        else (p, m)) := by
    simp only [PPU.step]
    rw [if_pos h]
  by_cases hc : p.line = 0 ∧ p.mode = .oamScan
  · have hcond : ¬(p.line ≠ 0 ∨ p.mode ≠ .oamScan) := by
      push_neg
      exact hc
    rw [hstep, if_neg hcond]
    refine ⟨rfl, rfl, rfl, rfl, rfl, hc.1, hc.2, fun hx => absurd hc hx, fun _ => rfl⟩
  · have hcond : p.line ≠ 0 ∨ p.mode ≠ .oamScan := by
      by_cases h0 : p.line = 0
      · right
        intro hm
        exact hc ⟨h0, hm⟩
      · left
        exact h0
    rw [hstep, if_pos hcond]
    exact ⟨rfl, rfl, rfl, rfl, rfl, rfl, rfl, fun _ => ⟨rfl, rfl⟩, fun hx => absurd hx hc⟩

/-- A PPU idling at line 0 in OAM scan with a nonzero cycle accumulator. -/
def ppuIdleW : PPU :=
  { framebuffer := fun _ => 0
    bgColorIndices := fun _ => 0
    mode := .oamScan
    cycles := 42
    line := 0
    windowLineCounter := 0
    lycTriggered := false
    frameReady := false }

/-- A bus with LCDC = 0 (LCD disabled) and LY = 5. -/
def mmuLcdOffW : MMU := { mmuW with ioRegs := fun a => if a = 0x44 then 5 else 0 }

/-- C10 counterexample: with the LCD disabled and the PPU already at
(line 0, OAM scan) but with accumulator 42 and LY = 5, `PPU.step` changes
nothing: the accumulator stays 42 (the claim says it is reset to 0) and LY
stays 5 (the claim says 0 is written to LY). -/
theorem ppu_disabled_no_reset_when_idle :
    getBit (mmuLcdOffW.getIoReg 0x40) 7 = 0 ∧
    ppuIdleW.cycles = 42 ∧
    mmuLcdOffW.ioRegs 0x44 = 5 ∧
    PPU.step ppuIdleW mmuLcdOffW 4 = (ppuIdleW, mmuLcdOffW) ∧
    (PPU.step ppuIdleW mmuLcdOffW 4).1.cycles = 42 ∧
    (PPU.step ppuIdleW mmuLcdOffW 4).2.ioRegs 0x44 = 5 :=
  ⟨by decide, rfl, by decide, by rfl, by rfl, by decide⟩

/-- A PPU mid-frame (line 7, drawing mode, accumulator 100) with a dirty
framebuffer, for the C10 witness. -/
def ppuMidW : PPU :=
  { ppuIdleW with mode := .drawing, cycles := 100, line := 7, frameReady := true }

/-- Witness for C10: disabling the LCD mid-frame resets (line, mode,
accumulator) to (0, OAM scan, 0), writes LY = 0, and leaves the framebuffer
and frame-ready latch untouched. -/
theorem ppu_step_lcd_disabled_witness :
    (PPU.step ppuMidW mmuLcdOffW 4).1.framebuffer = ppuMidW.framebuffer ∧
    (PPU.step ppuMidW mmuLcdOffW 4).1.bgColorIndices = ppuMidW.bgColorIndices ∧
    (PPU.step ppuMidW mmuLcdOffW 4).1.frameReady = ppuMidW.frameReady ∧
    (PPU.step ppuMidW mmuLcdOffW 4).1.windowLineCounter = ppuMidW.windowLineCounter ∧
    (PPU.step ppuMidW mmuLcdOffW 4).1.lycTriggered = ppuMidW.lycTriggered ∧
    (PPU.step ppuMidW mmuLcdOffW 4).1.line = 0 ∧
    (PPU.step ppuMidW mmuLcdOffW 4).1.mode = .oamScan ∧
    (¬(ppuMidW.line = 0 ∧ ppuMidW.mode = .oamScan) →
      (PPU.step ppuMidW mmuLcdOffW 4).1.cycles = 0 ∧
      (PPU.step ppuMidW mmuLcdOffW 4).2 = mmuLcdOffW.setIoReg 0x44 0) ∧
    (ppuMidW.line = 0 ∧ ppuMidW.mode = .oamScan →
      PPU.step ppuMidW mmuLcdOffW 4 = (ppuMidW, mmuLcdOffW)) :=
  ppu_step_lcd_disabled ppuMidW mmuLcdOffW 4 (by decide)

/-! ### C8 — sprite-per-scanline limit -/

theorem MMU.read_oam_entry (m : MMU) (a : Nat) (h1 : 0xFE00 ≤ a) (h2 : a < 0xFEA0) :
    m.read a = m.oam (a - 0xFE00) :=
  MMU.read_oam m a h1 h2

/-- `readSprite` in terms of the OAM store. -/
theorem readSprite_eq (m : MMU) (i : Nat) (hi : i < 40) :
    readSprite m i
      = { y := (m.oam (i * 4) : Int) - 16
          x := (m.oam (i * 4 + 1) : Int) - 8
          tile := m.oam (i * 4 + 2)
          flags := m.oam (i * 4 + 3)
          oamIndex := i } := by
  simp only [readSprite]
  rw [MMU.read_oam m (0xFE00 + i * 4) (by omega) (by omega),
      MMU.read_oam m (0xFE00 + i * 4 + 1) (by omega) (by omega),
      MMU.read_oam m (0xFE00 + i * 4 + 2) (by omega) (by omega),
      MMU.read_oam m (0xFE00 + i * 4 + 3) (by omega) (by omega)]
  have e0 : 0xFE00 + i * 4 - 0xFE00 = i * 4 := by omega
  have e1 : 0xFE00 + i * 4 + 1 - 0xFE00 = i * 4 + 1 := by omega
  have e2 : 0xFE00 + i * 4 + 2 - 0xFE00 = i * 4 + 2 := by omega
  have e3 : 0xFE00 + i * 4 + 3 - 0xFE00 = i * 4 + 3 := by omega
  rw [e0, e1, e2, e3]

/-- Overwrite the four bytes of OAM entry `j` (test harness for the
invariance part of C8). -/
def setOamEntry (m : MMU) (j b0 b1 b2 b3 : Nat) : MMU :=
  { m with oam := upd (upd (upd (upd m.oam (j * 4) b0) (j * 4 + 1) b1) (j * 4 + 2) b2) (j * 4 + 3) b3 }

theorem readSprite_setOamEntry_ne (m : MMU) (j b0 b1 b2 b3 i : Nat)
    (hij : i ≠ j) (hi : i < 40) :
    readSprite (setOamEntry m j b0 b1 b2 b3) i = readSprite m i := by
  rw [readSprite_eq _ i hi, readSprite_eq m i hi]
  unfold setOamEntry
  have g0 : ∀ k, k < 4 →
      upd (upd (upd (upd m.oam (j * 4) b0) (j * 4 + 1) b1) (j * 4 + 2) b2) (j * 4 + 3) b3 (i * 4 + k)
        = m.oam (i * 4 + k) := by
    intro k hk
    rw [upd_ne _ _ _ _ (by omega), upd_ne _ _ _ _ (by omega),
        upd_ne _ _ _ _ (by omega), upd_ne _ _ _ _ (by omega)]
  have g0' := g0 0 (by omega)
  have g1 := g0 1 (by omega)
  have g2 := g0 2 (by omega)
  have g3 := g0 3 (by omega)
  simp only at g0' ⊢
  rw [show i * 4 + 0 = i * 4 from by omega] at g0'
  rw [g0', g1, g2, g3]

/-- Reads from the VRAM window do not depend on the OAM store. -/
theorem MMU.read_oam_congr (m : MMU) (o : Nat → Nat) (a : Nat)
    (h1 : 0x8000 ≤ a) (h2 : a < 0xA000) :
    ({ m with oam := o } : MMU).read a = m.read a := by
  rw [MMU.read_vram _ a h1 h2, MMU.read_vram m a h1 h2]

/-- The gather loop collects exactly the first `10 - acc.length` on-line
entries of the remaining index list. -/
theorem gatherAux_eq (m : MMU) (line h : Nat) :
    ∀ (is : List Nat) (acc : List Sprite), acc.length < 10 →
      gatherAux m line h is acc
        = acc.reverse
            ++ ((is.map (readSprite m)).filter (spriteOnLine line h)).take (10 - acc.length) := by
  intro is
  induction is with
  | nil =>
    intro acc hacc
    simp [gatherAux]
  | cons i rest ih =>
    intro acc hacc
    simp only [gatherAux, List.map_cons, List.filter_cons]
    by_cases hon : spriteOnLine line h (readSprite m i) = true
    · rw [if_pos hon]
      by_cases hfull : 10 ≤ (readSprite m i :: acc).length
      · rw [if_pos hfull]
        have hlen : acc.length = 9 := by
          simp only [List.length_cons] at hfull
          omega
        have h10 : 10 - acc.length = 1 := by omega
        simp [hon, hlen, h10, List.reverse_cons]
      · rw [if_neg hfull]
        rw [ih (readSprite m i :: acc) (by simp only [List.length_cons] at hfull ⊢; omega)]
        have hsub : 10 - acc.length = (10 - (readSprite m i :: acc).length) + 1 := by
          simp only [List.length_cons]
          omega
        simp only [hon, if_pos, List.reverse_cons, hsub, List.take_succ_cons]
        simp
    · rw [if_neg hon, ih acc hacc]
      simp [hon]

/-- The gathered candidate list is the 10-element prefix of the on-line
entries in OAM order. -/
theorem gatherSprites_eq (m : MMU) (line h : Nat) :
    gatherSprites m line h
      = (((List.range 40).map (readSprite m)).filter (spriteOnLine line h)).take 10 := by
  unfold gatherSprites
  rw [gatherAux_eq m line h (List.range 40) [] (by simp)]
  simp

/-- For an on-line sprite with a byte-sized tile index, the selected tile
number is a byte and the selected row is in `[0, 8)`. -/
theorem spriteTileRow_bounds (line spriteHeight : Nat) (s : Sprite)
    (hh : spriteHeight = 8 ∨ spriteHeight = 16)
    (htile : s.tile < 256)
    (hon : spriteOnLine line spriteHeight s = true) :
    (spriteTileRow line spriteHeight s).1 < 256 ∧
    0 ≤ (spriteTileRow line spriteHeight s).2 ∧
    (spriteTileRow line spriteHeight s).2 < 8 := by
  have hy : s.y ≤ (line : Int) ∧ (line : Int) < s.y + spriteHeight := by
    unfold spriteOnLine at hon
    simp only [Bool.and_eq_true, decide_eq_true_eq] at hon
    exact hon
  have htand : Nat.land s.tile 0xFE < 256 := by
    calc Nat.land s.tile 0xFE ≤ s.tile := by rw [land_eq_and]; exact Nat.and_le_left
    _ < 256 := htile
  have htor : Nat.lor (Nat.land s.tile 0xFE) 0x01 < 256 := by
    rw [lor_eq_or, show (256 : Nat) = 2 ^ 8 from by norm_num]
    exact Nat.or_lt_two_pow (by simpa using htand) (by norm_num)
  simp only [spriteTileRow]
  rcases hh with h8 | h16 <;> subst spriteHeight
  · rw [iteNo (by omega)]
    split_ifs with hf
    · refine ⟨htile, by push_cast; omega, by push_cast; omega⟩
    · refine ⟨htile, by push_cast; omega, by push_cast; omega⟩
  · rw [if_pos rfl]
    split_ifs with hf hrow hrow
    · push_cast at hy hrow ⊢
      exact ⟨htor, by omega, by omega⟩
    · push_cast at hy hrow ⊢
      exact ⟨htand, by omega, by omega⟩
    · push_cast at hy hrow ⊢
      exact ⟨htor, by omega, by omega⟩
    · push_cast at hy hrow ⊢
      exact ⟨htand, by omega, by omega⟩

/-- `drawSprite` does not depend on the OAM store: it reads only VRAM (the
tile-data window), given an on-line sprite with a byte-sized tile index. -/
theorem drawSprite_oam_congr (m : MMU) (o : Nat → Nat)
    (line spriteHeight obp0 obp1 : Nat) (bg fb : Nat → Nat) (s : Sprite)
    (hh : spriteHeight = 8 ∨ spriteHeight = 16)
    (htile : s.tile < 256) (hon : spriteOnLine line spriteHeight s = true) :
    drawSprite { m with oam := o } line spriteHeight obp0 obp1 bg fb s
      = drawSprite m line spriteHeight obp0 obp1 bg fb s := by
  obtain ⟨ht, hr0, hr8⟩ := spriteTileRow_bounds line spriteHeight s hh htile hon
  have htn : (spriteTileRow line spriteHeight s).2.toNat < 8 := by omega
  simp only [drawSprite]
  rw [MMU.read_oam_congr m o
        (0x8000 + (spriteTileRow line spriteHeight s).1 * 16
          + (spriteTileRow line spriteHeight s).2.toNat * 2)
        (by omega) (by omega),
      MMU.read_oam_congr m o
        (0x8000 + (spriteTileRow line spriteHeight s).1 * 16
          + (spriteTileRow line spriteHeight s).2.toNat * 2 + 1)
        (by omega) (by omega)]

/-- Folds agree when the step functions agree on the list's elements. -/
theorem foldl_congr_mem {α β : Type} (l : List α) (f g : β → α → β) (a : β)
    (h : ∀ b x, x ∈ l → f b x = g b x) : l.foldl f a = l.foldl g a := by
  induction l generalizing a with
  | nil => rfl
  | cons x xs ih =>
    simp only [List.foldl_cons]
    rw [h a x (List.mem_cons_self x xs)]
    exact ih _ fun b y hy => h b y (List.mem_cons_of_mem x hy)

/-- Rewriting OAM entry `j` does not change the gathered candidates when at
least 10 earlier entries are on-line. -/
theorem gather_setOamEntry_eq (m : MMU) (line h j b0 b1 b2 b3 : Nat) (hj : j < 40)
    (hcount : 10 ≤ (((List.range j).map (readSprite m)).filter (spriteOnLine line h)).length) :
    gatherSprites (setOamEntry m j b0 b1 b2 b3) line h = gatherSprites m line h := by
  rw [gatherSprites_eq, gatherSprites_eq]
  have h40 : (40 - j) + j = 40 := by omega
  have hsplit : List.range 40 = List.range j ++ List.range' j (40 - j) := by
    rw [List.range_eq_range', List.range_eq_range', ← h40,
      ← List.range'_append 0 j (40 - j) 1]
    norm_num
  have hmapA : (List.range j).map (readSprite (setOamEntry m j b0 b1 b2 b3))
      = (List.range j).map (readSprite m) := by
    apply List.map_congr_left
    intro i hi
    rw [List.mem_range] at hi
    exact readSprite_setOamEntry_ne m j b0 b1 b2 b3 i (by omega) (by omega)
  rw [hsplit, List.map_append, List.map_append, List.filter_append, List.filter_append,
    hmapA, List.take_append_of_le_length hcount, List.take_append_of_le_length hcount]

theorem setOamEntry_getIoReg (m : MMU) (j b0 b1 b2 b3 x : Nat) :
    (setOamEntry m j b0 b1 b2 b3).getIoReg x = m.getIoReg x := rfl

/-- C8: `PPU.renderSprites` keeps only the first at most 10 on-line sprites
(`line ∈ [y−16, y−16+height)` in OAM order) of the 40 OAM entries; and a
later on-line entry — one preceded by at least 10 on-line entries in OAM
order — contributes no pixels: rewriting it arbitrarily leaves the rendered
framebuffer unchanged. -/
theorem sprite_scanline_limit (m : MMU) (line : Nat) (bg fb : Nat → Nat)
    (j b0 b1 b2 b3 : Nat) (hj : j < 40)
    (hbytes : ∀ i, i < 160 → m.oam i < 256)
    (hcount : 10 ≤ (((List.range j).map (readSprite m)).filter
        (spriteOnLine line (if getBit (m.getIoReg 0x40) 2 = 1 then 16 else 8))).length) :
    (∀ h, gatherSprites m line h
        = (((List.range 40).map (readSprite m)).filter (spriteOnLine line h)).take 10) ∧
    (∀ h, (gatherSprites m line h).length ≤ 10) ∧
    renderSprites (setOamEntry m j b0 b1 b2 b3) line bg fb
      = renderSprites m line bg fb := by
  refine ⟨fun h => gatherSprites_eq m line h, fun h => ?_, ?_⟩
  · rw [gatherSprites_eq]
    exact List.length_take_le 10 _
  · simp only [renderSprites, setOamEntry_getIoReg]
    rw [show gatherSprites (setOamEntry m j b0 b1 b2 b3) line
          (if getBit (m.getIoReg 0x40) 2 = 1 then 16 else 8)
        = gatherSprites m line (if getBit (m.getIoReg 0x40) 2 = 1 then 16 else 8) from
      gather_setOamEntry_eq m line _ j b0 b1 b2 b3 hj hcount]
    apply foldl_congr_mem
    intro b s hs
    have hmem : s ∈ gatherSprites m line (if getBit (m.getIoReg 0x40) 2 = 1 then 16 else 8) := by
      have hperm := List.mergeSort_perm
        (gatherSprites m line (if getBit (m.getIoReg 0x40) 2 = 1 then 16 else 8)) spriteLE
      exact hperm.mem_iff.mp hs
    rw [gatherSprites_eq] at hmem
    have hmem2 := List.mem_of_mem_take hmem
    rw [List.mem_filter] at hmem2
    obtain ⟨hmem3, hon⟩ := hmem2
    rw [List.mem_map] at hmem3
    obtain ⟨i, hi, hsi⟩ := hmem3
    rw [List.mem_range] at hi
    have htile : s.tile < 256 := by
      rw [← hsi, readSprite_eq m i hi]
      exact hbytes (i * 4 + 2) (by omega)
    have hh : (if getBit (m.getIoReg 0x40) 2 = 1 then 16 else 8) = 8 ∨
        (if getBit (m.getIoReg 0x40) 2 = 1 then 16 else 8) = 16 := by
      by_cases hb2 : getBit (m.getIoReg 0x40) 2 = 1 <;> simp [hb2]
    exact drawSprite_oam_congr m _ line _ (m.getIoReg 0x48) (m.getIoReg 0x49) bg b s
      (by omega) htile hon

/-- A bus whose 40 OAM entries all have `y = 16` (on-line at line 0 for
8-pixel sprites) and whose LCDC selects 8×8 sprites. -/
def mmuOamFullW : MMU :=
  { mmuW with oam := fun i => if i % 4 = 0 then 16 else 0, ioRegs := fun _ => 0 }

/-- Witness for C8 at `line = 0`, height 8, rewriting entry `j = 10` (the
11th): the candidate list is the 10-element prefix of the on-line entries
and the rendered framebuffer ignores the rewritten entry. -/
theorem sprite_scanline_limit_witness :
    (gatherSprites mmuOamFullW 0 8
      = (((List.range 40).map (readSprite mmuOamFullW)).filter (spriteOnLine 0 8)).take 10) ∧
    (gatherSprites mmuOamFullW 0 8).length ≤ 10 ∧
    renderSprites (setOamEntry mmuOamFullW 10 200 50 3 0) 0 (fun _ => 0) (fun _ => 0)
      = renderSprites mmuOamFullW 0 (fun _ => 0) (fun _ => 0) :=
  ⟨(sprite_scanline_limit mmuOamFullW 0 (fun _ => 0) (fun _ => 0) 10 200 50 3 0
      (by omega) (by decide) (by decide)).1 8,
   (sprite_scanline_limit mmuOamFullW 0 (fun _ => 0) (fun _ => 0) 10 200 50 3 0
      (by omega) (by decide) (by decide)).2.1 8,
   (sprite_scanline_limit mmuOamFullW 0 (fun _ => 0) (fun _ => 0) 10 200 50 3 0
      (by omega) (by decide) (by decide)).2.2⟩

end GBEmu
